import Mathlib

/-
Verification of the CT_RAG_Workshop ingestion/retrieval pipeline.

The JavaScript sources are shallowly embedded as pure Lean functions:
* the MongoDB collection is a `List StoredDoc` threaded through every
  operation (insertMany = append, deleteMany = drop, findOne = List.find?),
* the external embedding provider is a parameter `embed : String → Except String Vec`
  (a thrown provider error is the `.error` case),
* the external completion provider is a parameter `answer : String → String → String`,
* the external ANN store ranks by a similarity score; the score function is a
  parameter and the store-side top-k selection is modelled exactly.
Vector entries are modelled as integers: only the length of a vector and the
ranking computed by the external store ever matter to the handlers.
-/

namespace RagWorkshop

/-- Embedding vectors: fixed-length numeric arrays produced by a provider. -/
abbrev Vec := List Int

/-- The `metadata` sub-document of a persisted chunk record
(src/api/get-collection-stats.js:378-387). -/
structure ChunkMeta where
  source : String
  fileType : String
  page : Nat
  sheet : Option String := none
  slide : Option Nat := none
  chunk_index : Nat := 0
  total_chunks : Nat := 0
deriving Repr, DecidableEq

/-- A document stored in the collection.  A stored chunk record holds its text,
exactly one of the three known vector fields, and metadata; legacy documents
may carry any subset of the vector fields, so all three are optional. -/
structure StoredDoc where
  text : String := ""
  embedding : Option Vec := none
  embeddingVector : Option Vec := none
  plot_embedding : Option Vec := none
  metadata : ChunkMeta
deriving Repr, DecidableEq

/-- Existence probe `{ <path>: { $exists: true } }` for the three known vector field names. -/
def hasField (path : String) (d : StoredDoc) : Bool :=
  if path = "embeddingVector" then d.embeddingVector.isSome
  else if path = "embedding" then d.embedding.isSome
  else if path = "plot_embedding" then d.plot_embedding.isSome
  else false

/-- The vector stored under the given field name, if any. -/
def fieldVec (path : String) (d : StoredDoc) : Option Vec :=
  if path = "embeddingVector" then d.embeddingVector
  else if path = "embedding" then d.embedding
  else if path = "plot_embedding" then d.plot_embedding
  else none

/-- Function `getEmbeddingFieldPath` (src/unnamed/part_002:4-23 and
src/api/get-collection-stats.js:178-197): three `findOne` probes in priority
order `embeddingVector`, `embedding`, `plot_embedding`; default `"embedding"`
when the collection is empty or no known field is present. -/
def getEmbeddingFieldPath (docs : List StoredDoc) : String :=
  if (docs.find? (fun d => d.embeddingVector.isSome)).isSome then "embeddingVector"
  else if (docs.find? (fun d => d.embedding.isSome)).isSome then "embedding"
  else if (docs.find? (fun d => d.plot_embedding.isSome)).isSome then "plot_embedding"
  else "embedding"

/-- The fixed priority list of known vector field names, newest convention
first, as the spec describes the Schema Resolver (spec section 4.4). -/
def priorityFields : List String := ["embeddingVector", "embedding", "plot_embedding"]

/-- The Schema Resolver as the spec words it: the first field name in the
priority order for which some stored document has that field, the default
name when none is found.  Stated from the spec to be compared with
`getEmbeddingFieldPath`, which is translated from the source. -/
def resolveFieldPathSpec (docs : List StoredDoc) : String :=
  (priorityFields.find? (fun p => docs.any (hasField p))).getD "embedding"

/-- Output of the GetCollectionStats handler
(src/api/get-collection-stats.js:110-150). -/
structure StatsOut where
  totalChunks : Nat
  totalDocuments : Nat
  embeddingDimensions : Option Nat
  embeddingFieldPath : Option String
deriving Repr, DecidableEq

/-- The `findOne` predicate of the stats handler: the `$or` over the three
`$exists` probes (src/api/get-collection-stats.js:114-120). -/
def hasAnyEmbField (d : StoredDoc) : Bool :=
  d.embedding.isSome || d.embeddingVector.isSome || d.plot_embedding.isSome

/-- The GetCollectionStats handler (src/api/get-collection-stats.js:110-150):
counts, then a sampled document decides `embeddingDimensions` and
`embeddingFieldPath`; both stay `null` when no document carries a known
vector field.  Vector values are arrays by construction, so the
`Array.isArray` guards correspond to the `Option` being set. -/
def getCollectionStats (docs : List StoredDoc) : StatsOut :=
  let totalChunks := docs.length
  let totalDocuments := (docs.map (fun d => d.metadata.source)).dedup.length
  match docs.find? hasAnyEmbField with
  | none => ⟨totalChunks, totalDocuments, none, none⟩
  | some d =>
    match d.embedding with
    | some v => ⟨totalChunks, totalDocuments, some v.length, some "embedding"⟩
    | none =>
      match d.embeddingVector with
      | some v => ⟨totalChunks, totalDocuments, some v.length, some "embeddingVector"⟩
      | none =>
        match d.plot_embedding with
        | some v => ⟨totalChunks, totalDocuments, some v.length, some "plot_embedding"⟩
        | none => ⟨totalChunks, totalDocuments, none, none⟩

/-! ### Chunker

Modelled from the spec: the Chunker (spec section 4.2) is LangChain
`RecursiveCharacterTextSplitter` configured with `chunkSize: 1000` and
`chunkOverlap: 200` (src/api/get-collection-stats.js:359-362); the splitting
algorithm itself is an external library dependency and is not under src.
Following the words of the spec, a unit of text is cut into windows of the
fixed target size 1000 with overlap 200; each cut prefers the latest semantic
boundary (a space or newline) available inside the window before falling back
to a hard character cut at the full window size.  An empty unit yields zero
chunks and a unit no longer than the chunk size yields exactly one chunk. -/

/-- A semantic-boundary character: the separator priority list of the spec
(paragraph, line, sentence, word boundaries) always ends the fragment before
the cut with a space or a newline. -/
def isSepChar (c : Char) : Bool := c = ' ' || c = '\n'

/-- Position `b` is a usable cut position when the character just before it is a
separator, so the cut falls on a semantic boundary. -/
def boundaryAt (text : List Char) (b : Nat) : Bool :=
  (text[b-1]?.map isSepChar).getD false

/-- The largest cut position in `[lo, hi]` that falls on a semantic boundary. -/
def lastBoundary (text : List Char) (lo hi : Nat) : Option Nat :=
  ((List.range' lo (hi + 1 - lo)).filter (boundaryAt text)).getLast?

/-- Where to cut the window that starts at `p`: the latest semantic boundary
that keeps the chunk within the target size 1000 (and keeps the split making
progress past the 200-character overlap), with a hard character cut at
`p + 1000` as the fallback.  The clamp into `[p + 201, p + 1000]` never moves
a found boundary (the search range is exactly that interval); it only makes
the bounds definitional. -/
def cutPoint (text : List Char) (p : Nat) : Nat :=
  max (p + 201)
    (min (p + 1000) ((lastBoundary text (p + 201) (p + 1000)).getD (p + 1000)))

/-- The chunk sequence of one unit of text, starting at offset `p`: emit the
remainder when at most one window is left, otherwise emit the window up to the
chosen cut and restart 200 characters before the cut. -/
def chunkFrom (text : List Char) (p : Nat) : List (List Char) :=
  if text.length ≤ p + 1000 then [text.drop p]
  else
    (text.drop p).take (cutPoint text p - p) :: chunkFrom text (cutPoint text p - 200)
termination_by text.length - p
decreasing_by
  simp only [cutPoint]
  omega

/-- The `split` of a single unit: zero chunks for an empty unit, otherwise the
window sequence from offset 0 (spec section 4.2). -/
def splitUnit (text : String) : List String :=
  if text.length = 0 then []
  else (chunkFrom text.data 0).map (fun l => String.mk l)

/-- Two consecutive chunks share (at least) 200 overlapping characters: the
last 200 characters of the first chunk are exactly the first 200 characters
of the second. -/
def chunkOverlapOk (a b : String) : Prop :=
  200 ≤ b.length ∧ a.data.drop (a.data.length - 200) = b.data.take 200

/-- Overlap between two consecutive character chunks: the second is at least
200 characters long and begins with exactly the last 200 characters of the
first. -/
def overlapOkChars (a b : List Char) : Prop :=
  200 ≤ b.length ∧ a.drop (a.length - 200) = b.take 200

/-! ### Format Dispatcher and Ingestion Coordinator

Translated from the multi-format ingestion handler
(src/api/get-collection-stats.js:199-486): per-source dedup check, extension
switch with the PPTX fallback, LangChain splitter, per-chunk embedding, bulk
insert, per-file statistics.  The per-file `try` block has only a `finally`
(cleanup), no `catch`: an error thrown for one file propagates to the
handler-level catch and ends the whole call with a failure response. -/

/-- One `(pageContent, metadata)` unit returned by an external document
loader (one PDF page, one spreadsheet sheet, one whole text file, ...). -/
structure UnitDoc where
  pageContent : String
  page : Option Nat := none
  sheet : Option String := none
  slide : Option Nat := none
deriving Repr, DecidableEq

deriving instance DecidableEq for Except

/-- An uploaded file together with the outcome the external extractor
produces for it: the loader either returns its units or throws. -/
structure InFile where
  name : String
  extraction : Except String (List UnitDoc)
deriving Repr, DecidableEq

/-- The configured embedding provider: returns a vector for a text, or the
error of a failed call (`generateEmbedding` rethrows provider failures). -/
abbrev Embed := String → Except String Vec

/-- JS `file.name.toLowerCase().split('.').pop()`
(src/api/get-collection-stats.js:273): lowercase the name and keep what
follows the last dot — the whole name when it has no dot, the empty string
when it ends in a dot, exactly as `split('.').pop()` behaves. -/
def extOf (name : String) : String :=
  String.mk (((name.data.map Char.toLower).reverse.takeWhile
    (fun c => !(c = '.'))).reverse)

/-- The PPTX fallback text built when the archive cannot be extracted
(src/api/get-collection-stats.js:343). -/
def placeholderText (name : String) : String :=
  "PowerPoint presentation: " ++ name ++ ". Content could not be extracted."

/-- The extension switch (src/api/get-collection-stats.js:276-351).  The
supported loader formats pass the external extraction outcome through (a
loader throw propagates); for PPTX an extraction failure is caught and
replaced by a single placeholder unit with page 1 (:339-346); an unrecognized
extension throws (:349-350).  On success the PPTX branch also yields a single
unit with page 1 built from the extracted text (:331-338), which is the shape
the external outcome already carries. -/
def dispatch (file : InFile) : Except String (List UnitDoc) :=
  let ext := extOf file.name
  if ext = "pdf" ∨ ext = "csv" ∨ ext = "txt" ∨ ext = "docx" ∨ ext = "doc" ∨
      ext = "xls" ∨ ext = "xlsx" then
    file.extraction
  else if ext = "pptx" then
    match file.extraction with
    | .ok units => .ok units
    | .error _ => .ok [{ pageContent := placeholderText file.name, page := some 1 }]
  else
    .error ("Unsupported file type: " ++ ext)

/-- LangChain `textSplitter.splitDocuments`: split every unit, keeping each chunk
paired with the metadata of its originating unit. -/
def splitDocsUnits (units : List UnitDoc) : List (String × UnitDoc) :=
  units.flatMap (fun u => (splitUnit u.pageContent).map (fun c => (c, u)))

/-- JS `||` on a possibly-missing number: `0` and `undefined` fall back. -/
def jsOrNatOpt (o : Option Nat) (fallback : Nat) : Nat :=
  match o with
  | some n => if n = 0 then fallback else n
  | none => fallback

/-- JS `x || undefined` on a possibly-missing string: the empty string is
falsy and becomes `undefined`. -/
def jsTruthyStr (o : Option String) : Option String :=
  match o with
  | some s => if s = "" then none else some s
  | none => none

/-- JS `x || undefined` on a possibly-missing number: `0` becomes
`undefined`. -/
def jsTruthyNat (o : Option Nat) : Option Nat :=
  match o with
  | some n => if n = 0 then none else some n
  | none => none

/-- JS `Math.floor(index / Math.max(1, splitDocs.length / docs.length)) + 1`
(src/api/get-collection-stats.js:381); the JS floating-point division is
modelled over the rationals. -/
def pageFallback (index nSplit nDocs : Nat) : Nat :=
  (⌊(index : ℚ) / (max 1 ((nSplit : ℚ) / (nDocs : ℚ)))⌋).toNat + 1

/-- A persisted chunk record `{ text, [embeddingFieldPath]: vector, metadata }`
(src/api/get-collection-stats.js:375-388): the vector sits under the one
field named by the resolved path. -/
def mkStored (path : String) (text : String) (v : Vec) (meta : ChunkMeta) : StoredDoc :=
  if path = "embeddingVector" then { text := text, embeddingVector := some v, metadata := meta }
  else if path = "plot_embedding" then { text := text, plot_embedding := some v, metadata := meta }
  else { text := text, embedding := some v, metadata := meta }

/-- Embed every chunk text; any provider failure rejects the whole
`Promise.all`, so the first failing text's error is the outcome. -/
def embedAll (embed : Embed) : List String → Except String (List Vec)
  | [] => .ok []
  | t :: ts =>
    match embed t with
    | .error e => .error e
    | .ok v =>
      match embedAll embed ts with
      | .error e => .error e
      | .ok vs => .ok (v :: vs)

/-- A per-file entry of `processingStats`. -/
structure FileStat where
  fileName : String
  status : String
  chunksCreated : Nat
deriving Repr, DecidableEq

/-- Process one file of the batch (src/api/get-collection-stats.js:240-447):
skip when the source name already exists (:244-258), otherwise dispatch,
split, embed every chunk and append the records (:396-399).  The `.error`
outcomes (unsupported extension, loader throw, embedding failure) leave the
store untouched and propagate. -/
def coordIngestFile (embed : Embed) (path : String) (store : List StoredDoc)
    (file : InFile) : List StoredDoc × Except String FileStat :=
  if store.any (fun d => d.metadata.source = file.name) then
    (store, .ok ⟨file.name, "skipped", 0⟩)
  else
    match dispatch file with
    | .error e => (store, .error e)
    | .ok units =>
      let pieces := splitDocsUnits units
      match embedAll embed (pieces.map (fun c => c.1)) with
      | .error e => (store, .error e)
      | .ok vecs =>
        let n := pieces.length
        let recs := (pieces.zip vecs).enum.map (fun q =>
          mkStored path q.2.1.1 q.2.2
            { source := file.name
              fileType := (extOf file.name).toUpper
              page := jsOrNatOpt q.2.1.2.page (pageFallback q.1 n units.length)
              sheet := jsTruthyStr q.2.1.2.sheet
              slide := jsTruthyNat q.2.1.2.slide
              chunk_index := q.1
              total_chunks := n })
        (store ++ recs, .ok ⟨file.name, "processed", recs.length⟩)

/-- Outcome of the whole ingestion call: the per-file statistics on success,
or the message of the handler-level catch. -/
inductive IngestResult where
  | success : List FileStat → IngestResult
  | failure : String → IngestResult
deriving Repr, DecidableEq

/-- The sequential batch loop (src/api/get-collection-stats.js:240-447): file
N+1 starts only after file N; a thrown error reaches the handler-level catch,
so the statistics are only reported when every file completed, while chunks
already inserted stay in the store. -/
def coordIngest (embed : Embed) (path : String) (store : List StoredDoc) :
    List InFile → List StoredDoc × IngestResult
  | [] => (store, .success [])
  | f :: rest =>
    match coordIngestFile embed path store f with
    | (s, .error e) => (s, .failure e)
    | (s, .ok st) =>
      match coordIngest embed path s rest with
      | (s', .success sts) => (s', .success (st :: sts))
      | (s', .failure e) => (s', .failure e)

/-- The IngestDocuments operation: resolve the collection field path once
(src/api/get-collection-stats.js:225), then run the batch.  The pre-call
documents are preserved (the `deleteMany` of older variants is removed,
:234-235). -/
def ingestDocuments (embed : Embed) (store : List StoredDoc) (files : List InFile) :
    List StoredDoc × IngestResult :=
  coordIngest embed (getEmbeddingFieldPath store) store files

/-! ### Legacy process-documents pipeline

Translated from the second handler of src/api/process-documents.js
(lines 171-289): PDF-only, fixed `embedding` field, and a
`collection.deleteMany({})` (line 196) that clears the collection before the
loop. -/

/-- JS `Math.floor(index / (splitDocs.length / docs.length)) + 1`
(src/api/process-documents.js:241), JS float division over the rationals. -/
def pageFallbackLegacy (index nSplit nDocs : Nat) : Nat :=
  (⌊(index : ℚ) / ((nSplit : ℚ) / (nDocs : ℚ))⌋).toNat + 1

/-- Process one file in the legacy pipeline (src/api/process-documents.js:
200-271): no dedup check, records always under the `embedding` field; loader
and embedding errors propagate. -/
def legacyProcessFile (embed : Embed) (store : List StoredDoc) (file : InFile) :
    List StoredDoc × Except String Nat :=
  match file.extraction with
  | .error e => (store, .error e)
  | .ok units =>
    let pieces := splitDocsUnits units
    match embedAll embed (pieces.map (fun c => c.1)) with
    | .error e => (store, .error e)
    | .ok vecs =>
      let n := pieces.length
      let recs := (pieces.zip vecs).enum.map (fun q =>
        mkStored "embedding" q.2.1.1 q.2.2
          { source := file.name
            fileType := ""
            page := jsOrNatOpt q.2.1.2.page (pageFallbackLegacy q.1 n units.length)
            chunk_index := q.1
            total_chunks := n })
      (store ++ recs, .ok recs.length)

/-- The legacy batch loop; an error for any file ends the call with the
handler-level catch. -/
def legacyLoop (embed : Embed) (store : List StoredDoc) :
    List InFile → List StoredDoc × Option String
  | [] => (store, none)
  | f :: rest =>
    match legacyProcessFile embed store f with
    | (s, .error e) => (s, some e)
    | (s, .ok _) => legacyLoop embed s rest

/-- The legacy ProcessDocuments operation: `deleteMany({})` first
(src/api/process-documents.js:195-196) — the pre-call store is wiped — then
the batch loop over the now-empty collection. -/
def legacyProcessDocuments (embed : Embed) (_store : List StoredDoc)
    (files : List InFile) : List StoredDoc × Option String :=
  legacyLoop embed [] files

/-! ### Retrieval Engine and Answer Synthesizer

Translated from the query handler of src/unnamed/part_002 (the current query
engine; src/api/query-documents.js is the earlier variant of the same handler
with the field path hard-coded to `embedding`): embed the question, resolve
the field path, one `$vectorSearch` with `numCandidates: 100` and `limit: 3`,
context assembly with citation tags, completion call. -/

/-- The `$vectorSearch` aggregation stage issued to the store
(src/unnamed/part_002:57-67). -/
structure SearchRequest where
  index : String
  path : String
  queryVector : Vec
  numCandidates : Nat
  limit : Nat
deriving Repr, DecidableEq

/-- Descending order on a similarity key. -/
def keyGE (key : StoredDoc → Int) (a b : StoredDoc) : Prop :=
  key b ≤ key a

instance (key : StoredDoc → Int) : DecidableRel (keyGE key) :=
  fun a b => inferInstanceAs (Decidable (key b ≤ key a))

instance (key : StoredDoc → Int) : IsTotal StoredDoc (keyGE key) :=
  ⟨fun a b => le_total (key b) (key a)⟩

instance (key : StoredDoc → Int) : IsTrans StoredDoc (keyGE key) :=
  ⟨fun _ _ _ h1 h2 => le_trans h2 h1⟩

/-- The external vector store: the index was created with cosine similarity
(src/api/create-vector-index.js:104), so the store scores each candidate
document under the searched field against the query vector and returns the
best `limit` of them.  The score function is the external service's (cosine)
similarity; `numCandidates` only sizes the internal ANN candidate pool, which
the exact model takes to be all matching documents. -/
def vectorSearch (score : Vec → Vec → Int) (docs : List StoredDoc)
    (req : SearchRequest) : List StoredDoc :=
  let key := fun d => score req.queryVector ((fieldVec req.path d).getD [])
  ((docs.filter (hasField req.path)).insertionSort (keyGE key)).take req.limit

/-- The sentinel context used when the search returns nothing
(src/unnamed/part_002:84). -/
def sentinelNoDocs : String := "No relevant documents found."

/-- The citation tag of one retrieved chunk (src/unnamed/part_002:76-79),
with the JS `||` fallbacks for missing metadata. -/
def citationTag (i : Nat) (d : StoredDoc) : String :=
  "[Source " ++ toString (i + 1) ++ ": " ++
    (if d.metadata.source = "" then "Unknown" else d.metadata.source) ++ " (" ++
    (if d.metadata.fileType = "" then "UNKNOWN" else d.metadata.fileType) ++ "), Page " ++
    toString (if d.metadata.page = 0 then 1 else d.metadata.page) ++ "]"

/-- What the QueryDocuments operation returns, together with the model trace
of the store searches it issued and the raw retrieved documents. -/
structure QueryOutput where
  success : Bool
  errorMsg : Option String
  vectorSearchResult : String
  llmResponse : String
  sources : List String
  numRetrievedChunks : Nat
  searches : List SearchRequest
  retrieved : List StoredDoc
deriving Repr, DecidableEq

/-- The QueryDocuments operation (src/unnamed/part_002:39-97): the question
vector is what the configured embedding provider returned for the question;
`answer` is the external completion provider applied to question and context
(`generateLLMResponse`, temperature 0). -/
def queryDocuments (score : Vec → Vec → Int) (answer : String → String → String)
    (docs : List StoredDoc) (question : String) (questionVec : Vec) : QueryOutput :=
  let path := getEmbeddingFieldPath docs
  let req : SearchRequest := ⟨"rag_demo_index", path, questionVec, 100, 3⟩
  let results := vectorSearch score docs req
  let ctx :=
    if results.length > 0 then
      String.intercalate "\n\n---\n\n"
        (results.enum.map (fun q => citationTag q.1 q.2 ++ "\n" ++ q.2.text))
    else sentinelNoDocs
  let srcs :=
    if results.length > 0 then results.enum.map (fun q => citationTag q.1 q.2)
    else []
  { success := true
    errorMsg := none
    vectorSearchResult := ctx
    llmResponse := answer question ctx
    sources := srcs
    numRetrievedChunks := results.length
    searches := [req]
    retrieved := results }

/-! ### Concrete instances used by counterexamples and witnesses -/

/-- A constant external similarity score. -/
def zeroScore : Vec → Vec → Int := fun _ _ => 0

/-- A constant external completion provider. -/
def fixedAnswer : String → String → String := fun _ _ => "I do not know."

/-- An embedding provider that always succeeds with a 1-dimensional vector. -/
def okEmbed : Embed := fun _ => .ok [0]

/-- A collection ingested under a 1536-dimensional provider. -/
def mismatchStore : List StoredDoc :=
  [{ text := "chunk", embedding := some (List.replicate 1536 0),
     metadata := { source := "notes.txt", fileType := "TXT", page := 1 } }]

/-- A question vector from a 1024-dimensional provider. -/
def mismatchQvec : Vec := List.replicate 1024 0

/-- A file whose extension is in no branch of the extension switch. -/
def unsupportedFile : InFile :=
  { name := "slides.xyz", extraction := .ok [{ pageContent := "hello" }] }

/-- A well-formed text file following the unsupported one in a batch. -/
def followingFile : InFile :=
  { name := "b.txt", extraction := .ok [{ pageContent := "world" }] }

/-- A chunk present in the collection before an ingestion call. -/
def preChunk : StoredDoc :=
  { text := "old", embedding := some [1],
    metadata := { source := "old.txt", fileType := "TXT", page := 1 } }

/-- A document carrying only the newest-convention vector field. -/
def statsWitnessDoc : StoredDoc :=
  { text := "t", embeddingVector := some [0, 0, 0],
    metadata := { source := "a.txt", fileType := "TXT", page := 1 } }

/-- A one-document collection for the stats witness. -/
def statsWitnessStore : List StoredDoc := [statsWitnessDoc]

/-- A document with both `embeddingVector` and `embedding` set. -/
def bothFieldsDoc : StoredDoc :=
  { text := "t", embedding := some [0], embeddingVector := some [0, 0],
    metadata := { source := "a.txt", fileType := "TXT", page := 1 } }

/-- A PPTX file whose archive cannot be extracted. -/
def corruptPptx : InFile :=
  { name := "deck.pptx", extraction := .error "invalid zip" }

/-- A file re-submitted under the source name of `preChunk`. -/
def dupFile : InFile :=
  { name := "old.txt", extraction := .ok [{ pageContent := "ignored" }] }

/-! ## Theorems -/

/-- A `findOne` probe succeeds exactly when some document satisfies it. -/
theorem find?_isSome_eq_any (p : StoredDoc → Bool) (l : List StoredDoc) :
    (l.find? p).isSome = l.any p := by
  induction l with
  | nil => rfl
  | cons d rest ih =>
    by_cases h : p d
    · simp [List.find?, h]
    · simp [List.find?, h, ih]

theorem hasField_embeddingVector (d : StoredDoc) :
    hasField "embeddingVector" d = d.embeddingVector.isSome := rfl

theorem hasField_embedding (d : StoredDoc) :
    hasField "embedding" d = d.embedding.isSome := rfl

theorem hasField_plot_embedding (d : StoredDoc) :
    hasField "plot_embedding" d = d.plot_embedding.isSome := rfl

theorem fieldVec_embeddingVector (d : StoredDoc) :
    fieldVec "embeddingVector" d = d.embeddingVector := rfl

theorem fieldVec_embedding (d : StoredDoc) :
    fieldVec "embedding" d = d.embedding := rfl

theorem fieldVec_plot_embedding (d : StoredDoc) :
    fieldVec "plot_embedding" d = d.plot_embedding := rfl

/-- C5: `resolveFieldPath` is a deterministic function of the document set:
`getEmbeddingFieldPath` returns the first field name of the fixed priority
order `embeddingVector`, `embedding`, `plot_embedding` possessed by some
stored document, and the default name `embedding` when the collection is
empty or no known field is present; a collection containing a document with
`embeddingVector` (in particular one that also contains `embedding`)
resolves to `embeddingVector`. -/
theorem getEmbeddingFieldPath_eq_spec (docs : List StoredDoc) :
    getEmbeddingFieldPath docs = resolveFieldPathSpec docs ∧
    (docs.any (fun d => d.embeddingVector.isSome) = true →
      getEmbeddingFieldPath docs = "embeddingVector") ∧
    (docs = [] → getEmbeddingFieldPath docs = "embedding") := by
  have e1 : docs.any (hasField "embeddingVector") =
      docs.any (fun d => d.embeddingVector.isSome) :=
    congrArg docs.any (funext (fun d => hasField_embeddingVector d))
  have e2 : docs.any (hasField "embedding") =
      docs.any (fun d => d.embedding.isSome) :=
    congrArg docs.any (funext (fun d => hasField_embedding d))
  have e3 : docs.any (hasField "plot_embedding") =
      docs.any (fun d => d.plot_embedding.isSome) :=
    congrArg docs.any (funext (fun d => hasField_plot_embedding d))
  refine ⟨?_, ?_, ?_⟩
  · unfold getEmbeddingFieldPath resolveFieldPathSpec priorityFields
    simp only [List.find?, find?_isSome_eq_any, e1, e2, e3]
    by_cases h1 : docs.any (fun d => d.embeddingVector.isSome) <;>
      by_cases h2 : docs.any (fun d => d.embedding.isSome) <;>
        by_cases h3 : docs.any (fun d => d.plot_embedding.isSome) <;>
          simp [h1, h2, h3]
  · intro h
    unfold getEmbeddingFieldPath
    simp [find?_isSome_eq_any, h]
  · intro h
    subst h
    rfl

/-- Witness for C5 at a concrete collection holding both `embeddingVector`
and `embedding`: it resolves to the higher-priority `embeddingVector`. -/
theorem getEmbeddingFieldPath_eq_spec_witness :
    ([bothFieldsDoc].any (fun d => d.embeddingVector.isSome) = true) ∧
    getEmbeddingFieldPath [bothFieldsDoc] = "embeddingVector" ∧
    getEmbeddingFieldPath [] = "embedding" :=
  ⟨by decide,
   (getEmbeddingFieldPath_eq_spec [bothFieldsDoc]).2.1 (by decide),
   (getEmbeddingFieldPath_eq_spec []).2.2 rfl⟩

/-- C10: when no stored document has any of the fields `embedding`,
`embeddingVector` or `plot_embedding` (in particular for an empty
collection), GetCollectionStats reports `embeddingDimensions = null` and
`embeddingFieldPath = null`; and when the sampled document exists, the
reported dimension is the length of that document's vector under the
reported field. -/
theorem getCollectionStats_embedding_report (docs : List StoredDoc) :
    ((∀ d ∈ docs, hasAnyEmbField d = false) →
      (getCollectionStats docs).embeddingDimensions = none ∧
      (getCollectionStats docs).embeddingFieldPath = none) ∧
    (∀ d, docs.find? hasAnyEmbField = some d →
      ∃ p v, (getCollectionStats docs).embeddingFieldPath = some p ∧
        fieldVec p d = some v ∧
        (getCollectionStats docs).embeddingDimensions = some v.length) := by
  constructor
  · intro h
    have hf : docs.find? hasAnyEmbField = none :=
      List.find?_eq_none.mpr (fun x hx => by simp [h x hx])
    constructor <;> simp [getCollectionStats, hf]
  · intro d hd
    have hpred : hasAnyEmbField d = true := List.find?_some hd
    cases he : d.embedding with
    | some v =>
      exact ⟨"embedding", v, by simp [getCollectionStats, hd, he],
        (fieldVec_embedding d).trans he, by simp [getCollectionStats, hd, he]⟩
    | none =>
      cases hev : d.embeddingVector with
      | some v =>
        exact ⟨"embeddingVector", v, by simp [getCollectionStats, hd, he, hev],
          (fieldVec_embeddingVector d).trans hev,
          by simp [getCollectionStats, hd, he, hev]⟩
      | none =>
        cases hpe : d.plot_embedding with
        | some v =>
          exact ⟨"plot_embedding", v, by simp [getCollectionStats, hd, he, hev, hpe],
            (fieldVec_plot_embedding d).trans hpe,
            by simp [getCollectionStats, hd, he, hev, hpe]⟩
        | none =>
          exfalso
          simp [hasAnyEmbField, he, hev, hpe] at hpred

/-- Witness for C10: the empty collection reports `null`, and a collection
whose sample document stores a 3-dimensional `embeddingVector` reports that
field and dimension 3. -/
theorem getCollectionStats_embedding_report_witness :
    (getCollectionStats []).embeddingDimensions = none ∧
    (∃ p v, (getCollectionStats statsWitnessStore).embeddingFieldPath = some p ∧
      fieldVec p statsWitnessDoc = some v ∧
      (getCollectionStats statsWitnessStore).embeddingDimensions = some v.length) :=
  ⟨(((getCollectionStats_embedding_report []).1 (by simp)).1),
   (getCollectionStats_embedding_report statsWitnessStore).2 statsWitnessDoc (by decide)⟩

/-- C1 counterexample: a collection whose stored vectors are 1536-dimensional
is queried with a 1024-dimensional question vector (provider reconfigured
without reset).  The operation does not fail before the store query: it
issues the vector search anyway and returns success with no error — no
`DimensionMismatchError` exists anywhere in the code. -/
theorem query_dimension_mismatch_counterexample :
    (mismatchStore.head?.bind (fun d => d.embedding)).map List.length = some 1536 ∧
    mismatchQvec.length = 1024 ∧
    (queryDocuments zeroScore fixedAnswer mismatchStore "q" mismatchQvec).searches ≠ [] ∧
    (queryDocuments zeroScore fixedAnswer mismatchStore "q" mismatchQvec).errorMsg = none ∧
    (queryDocuments zeroScore fixedAnswer mismatchStore "q" mismatchQvec).success = true := by
  refine ⟨?_, ?_, ?_, rfl, rfl⟩
  · show Option.map List.length (some (List.replicate 1536 (0 : Int))) = some 1536
    rw [Option.map_some', List.length_replicate]
  · show (List.replicate 1024 (0 : Int)).length = 1024
    rw [List.length_replicate]
  · show [(⟨"rag_demo_index", getEmbeddingFieldPath mismatchStore, mismatchQvec, 100, 3⟩ :
      SearchRequest)] ≠ []
    exact List.cons_ne_nil _ _

/-- C1 amended: the query operation performs no dimension validation at all:
for every collection and question vector — in particular whenever the
configured provider's output dimension differs from the stored dimension —
it still issues exactly one vector search to the store and reports success
with no error. -/
theorem query_no_dimension_check (score : Vec → Vec → Int)
    (answer : String → String → String) (docs : List StoredDoc)
    (question : String) (qvec : Vec) :
    (queryDocuments score answer docs question qvec).searches =
      [⟨"rag_demo_index", getEmbeddingFieldPath docs, qvec, 100, 3⟩] ∧
    (queryDocuments score answer docs question qvec).errorMsg = none ∧
    (queryDocuments score answer docs question qvec).success = true :=
  ⟨rfl, rfl, rfl⟩

/-- C7: the query operation issues a single nearest-neighbor search with
index `rag_demo_index`, the collection's resolved embedding field path, a
candidate pool of 100 and limit 3; it returns at most 3 results, every one
carrying the resolved field, ranked by the store's (cosine) similarity in
descending order. -/
theorem query_single_topk_search (score : Vec → Vec → Int)
    (answer : String → String → String) (docs : List StoredDoc)
    (question : String) (qvec : Vec) :
    (queryDocuments score answer docs question qvec).searches =
      [⟨"rag_demo_index", getEmbeddingFieldPath docs, qvec, 100, 3⟩] ∧
    (queryDocuments score answer docs question qvec).numRetrievedChunks ≤ 3 ∧
    (queryDocuments score answer docs question qvec).retrieved.length ≤ 3 ∧
    List.Sorted
      (keyGE (fun d => score qvec ((fieldVec (getEmbeddingFieldPath docs) d).getD [])))
      (queryDocuments score answer docs question qvec).retrieved ∧
    (∀ d ∈ (queryDocuments score answer docs question qvec).retrieved,
      hasField (getEmbeddingFieldPath docs) d = true) := by
  have hretr : (queryDocuments score answer docs question qvec).retrieved =
      vectorSearch score docs ⟨"rag_demo_index", getEmbeddingFieldPath docs, qvec, 100, 3⟩ := rfl
  have hnum : (queryDocuments score answer docs question qvec).numRetrievedChunks =
      (vectorSearch score docs
        ⟨"rag_demo_index", getEmbeddingFieldPath docs, qvec, 100, 3⟩).length := rfl
  refine ⟨rfl, ?_, ?_, ?_, ?_⟩
  · rw [hnum]
    exact List.length_take_le _ _
  · rw [hretr]
    exact List.length_take_le _ _
  · rw [hretr]
    unfold vectorSearch
    exact List.Pairwise.sublist (List.take_sublist _ _)
      (List.sorted_insertionSort _ _)
  · intro d hd
    rw [hretr] at hd
    unfold vectorSearch at hd
    have hmem : d ∈ (docs.filter (hasField (getEmbeddingFieldPath docs))).insertionSort
        (keyGE (fun d => score qvec ((fieldVec (getEmbeddingFieldPath docs) d).getD []))) :=
      (List.take_sublist _ _).subset hd
    have : d ∈ docs.filter (hasField (getEmbeddingFieldPath docs)) :=
      (List.perm_insertionSort _ _).subset hmem
    exact List.of_mem_filter this

/-- C8: when the vector search returns zero results, the query operation does
not fail: it reports zero retrieved chunks, the sentinel context string, an
empty sources list, and still calls the answer synthesizer on the sentinel
context. -/
theorem query_empty_result_ok (score : Vec → Vec → Int)
    (answer : String → String → String) (docs : List StoredDoc)
    (question : String) (qvec : Vec)
    (h : vectorSearch score docs
      ⟨"rag_demo_index", getEmbeddingFieldPath docs, qvec, 100, 3⟩ = []) :
    (queryDocuments score answer docs question qvec).numRetrievedChunks = 0 ∧
    (queryDocuments score answer docs question qvec).vectorSearchResult = sentinelNoDocs ∧
    (queryDocuments score answer docs question qvec).sources = [] ∧
    (queryDocuments score answer docs question qvec).llmResponse =
      answer question sentinelNoDocs ∧
    (queryDocuments score answer docs question qvec).success = true := by
  refine ⟨?_, ?_, ?_, ?_, rfl⟩ <;> simp [queryDocuments, h]

/-- Witness for C8: querying an empty collection retrieves nothing, returns
the sentinel context and still produces the synthesized answer. -/
theorem query_empty_result_ok_witness :
    vectorSearch zeroScore []
      ⟨"rag_demo_index", getEmbeddingFieldPath [], [0], 100, 3⟩ = [] ∧
    ((queryDocuments zeroScore fixedAnswer [] "any question" [0]).numRetrievedChunks = 0 ∧
     (queryDocuments zeroScore fixedAnswer [] "any question" [0]).vectorSearchResult = sentinelNoDocs ∧
     (queryDocuments zeroScore fixedAnswer [] "any question" [0]).sources = [] ∧
     (queryDocuments zeroScore fixedAnswer [] "any question" [0]).llmResponse =
       fixedAnswer "any question" sentinelNoDocs ∧
     (queryDocuments zeroScore fixedAnswer [] "any question" [0]).success = true) :=
  ⟨rfl, query_empty_result_ok zeroScore fixedAnswer [] "any question" [0] rfl⟩

/-- Processing one file either appends records and reports a statistic, or
fails leaving the store untouched. -/
theorem coordIngestFile_cases (embed : Embed) (path : String)
    (store : List StoredDoc) (file : InFile) :
    (∃ recs st, coordIngestFile embed path store file = (store ++ recs, .ok st)) ∨
    (∃ e, coordIngestFile embed path store file = (store, .error e)) := by
  by_cases hdup : store.any (fun d => d.metadata.source = file.name) = true
  · left
    refine ⟨[], ⟨file.name, "skipped", 0⟩, ?_⟩
    simp [coordIngestFile, hdup]
  · rw [Bool.not_eq_true] at hdup
    cases hdisp : dispatch file with
    | error e =>
      right
      exact ⟨e, by simp [coordIngestFile, hdup, hdisp]⟩
    | ok units =>
      cases hemb : embedAll embed ((splitDocsUnits units).map (fun c => c.1)) with
      | error e =>
        right
        exact ⟨e, by simp [coordIngestFile, hdup, hdisp, hemb]⟩
      | ok vecs =>
        left
        simp only [coordIngestFile, hdup, Bool.false_eq_true, if_false, hdisp, hemb]
        exact ⟨_, _, rfl⟩

/-- C2 amended: when processing a file throws (unsupported extension, a
loader failure on a non-PPTX format, or an embedding-provider failure), the
whole ingestion call fails at the handler-level catch: the remaining files of
the batch are never processed (the result does not depend on them) and no
per-file statistics are reported; the store keeps only what was inserted
before the failure. -/
theorem ingest_file_failure_aborts_batch (embed : Embed) (path : String)
    (store : List StoredDoc) (file : InFile) (rest : List InFile) (e : String)
    (h : (coordIngestFile embed path store file).2 = .error e) :
    coordIngest embed path store (file :: rest) = (store, .failure e) := by
  rcases coordIngestFile_cases embed path store file with ⟨recs, st, heq⟩ | ⟨e', heq⟩
  · rw [heq] at h
    simp at h
  · rw [heq] at h
    have he : e' = e := by
      simpa using h
    subst he
    show (match coordIngestFile embed path store file with
      | (s, Except.error e) => (s, IngestResult.failure e)
      | (s, Except.ok st) =>
        match coordIngest embed path s rest with
        | (s', IngestResult.success sts) => (s', IngestResult.success (st :: sts))
        | (s', IngestResult.failure e) => (s', IngestResult.failure e)) =
      (store, IngestResult.failure e')
    rw [heq]

/-- Witness for the amended C2 at a concrete batch: the first file has an
unsupported extension; the call fails and the second file is untouched. -/
theorem ingest_file_failure_aborts_batch_witness :
    (coordIngestFile okEmbed "embedding" [] unsupportedFile).2 =
      .error "Unsupported file type: xyz" ∧
    coordIngest okEmbed "embedding" [] [unsupportedFile, followingFile] =
      ([], .failure "Unsupported file type: xyz") :=
  ⟨rfl, ingest_file_failure_aborts_batch okEmbed "embedding" [] unsupportedFile
    [followingFile] "Unsupported file type: xyz" rfl⟩

/-- C2 counterexample: a two-file batch whose first file has an unrecognized
extension.  The claim promises that the second file is still processed and a
per-file outcome report is returned; instead the whole call fails with the
thrown error, reports no statistics, and inserts nothing for the second
file. -/
theorem ingest_batch_abort_counterexample :
    ingestDocuments okEmbed [] [unsupportedFile, followingFile] =
      ([], .failure "Unsupported file type: xyz") := rfl

/-- The batch loop only ever appends to the store. -/
theorem coordIngest_preserves (embed : Embed) (path : String) :
    ∀ (files : List InFile) (store : List StoredDoc) (d : StoredDoc),
      d ∈ store → d ∈ (coordIngest embed path store files).1 := by
  intro files
  induction files with
  | nil => intro store d h; exact h
  | cons f rest ih =>
    intro store d h
    rcases coordIngestFile_cases embed path store f with ⟨recs, st, heq⟩ | ⟨e, heq⟩
    · have h' : d ∈ store ++ recs := List.mem_append_left _ h
      have hrest := ih (store ++ recs) d h'
      have hred : coordIngest embed path store (f :: rest) =
          match coordIngest embed path (store ++ recs) rest with
          | (s', IngestResult.success sts) => (s', IngestResult.success (st :: sts))
          | (s', IngestResult.failure e) => (s', IngestResult.failure e) := by
        show (match coordIngestFile embed path store f with
          | (s, Except.error e) => (s, IngestResult.failure e)
          | (s, Except.ok st) =>
            match coordIngest embed path s rest with
            | (s', IngestResult.success sts) => (s', IngestResult.success (st :: sts))
            | (s', IngestResult.failure e) => (s', IngestResult.failure e)) = _
        rw [heq]
      rw [hred]
      cases hrec : coordIngest embed path (store ++ recs) rest with
      | mk s' r =>
        rw [hrec] at hrest
        cases r with
        | success sts => exact hrest
        | failure e2 => exact hrest
    · have hred : coordIngest embed path store (f :: rest) = (store, .failure e) := by
        show (match coordIngestFile embed path store f with
          | (s, Except.error e) => (s, IngestResult.failure e)
          | (s, Except.ok st) =>
            match coordIngest embed path s rest with
            | (s', IngestResult.success sts) => (s', IngestResult.success (st :: sts))
            | (s', IngestResult.failure e) => (s', IngestResult.failure e)) = _
        rw [heq]
      rw [hred]
      exact h

/-- C3 amended: the multi-format ingestion coordinator is append-only — every
chunk record present before the call is still present after it, whatever the
batch and however the call ends.  (The legacy process-documents handlers
violate this: they clear the collection first; and the index manager's
destructive reset also wipes it.) -/
theorem ingestion_never_deletes (embed : Embed) (store : List StoredDoc)
    (files : List InFile) (d : StoredDoc) (h : d ∈ store) :
    d ∈ (ingestDocuments embed store files).1 :=
  coordIngest_preserves embed (getEmbeddingFieldPath store) files store d h

/-- Witness for the amended C3: a pre-existing chunk survives an ingestion
call. -/
theorem ingestion_never_deletes_witness :
    preChunk ∈ [preChunk] ∧
    preChunk ∈ (ingestDocuments okEmbed [preChunk] [followingFile]).1 :=
  ⟨List.mem_singleton_self _,
   ingestion_never_deletes okEmbed [preChunk] [followingFile] preChunk
     (List.mem_singleton_self _)⟩

/-- C3 counterexample: the legacy ProcessDocuments handlers delete every
existing chunk (`deleteMany({})`, src/api/process-documents.js:195-196): after
a call — even with an empty batch — a previously stored chunk is gone. -/
theorem legacy_ingest_deletes_counterexample :
    preChunk ∈ [preChunk] ∧
    legacyProcessDocuments okEmbed [preChunk] [] = ([], none) ∧
    preChunk ∉ (legacyProcessDocuments okEmbed [preChunk] []).1 := by
  refine ⟨List.mem_singleton_self _, rfl, ?_⟩
  rw [show (legacyProcessDocuments okEmbed [preChunk] []).1 = [] from rfl]
  exact List.not_mem_nil _

/-- C4: ingestion is idempotent per source name — when the collection already
holds a chunk whose `metadata.source` equals the file's name, re-submitting
that file records status `skipped` with zero chunks created and leaves the
store exactly unchanged. -/
theorem ingest_duplicate_source_skipped (embed : Embed)
    (store : List StoredDoc) (file : InFile)
    (h : store.any (fun d => d.metadata.source = file.name) = true) :
    ingestDocuments embed store [file] =
      (store, .success [⟨file.name, "skipped", 0⟩]) := by
  unfold ingestDocuments coordIngest coordIngestFile
  simp [h, coordIngest]

/-- Witness for C4: re-submitting `old.txt` over a collection that already
has its chunk is a reported no-op. -/
theorem ingest_duplicate_source_skipped_witness :
    ([preChunk].any (fun d => d.metadata.source = dupFile.name) = true) ∧
    ingestDocuments okEmbed [preChunk] [dupFile] =
      ([preChunk], .success [⟨"old.txt", "skipped", 0⟩]) :=
  ⟨by decide, ingest_duplicate_source_skipped okEmbed [preChunk] dupFile (by decide)⟩

/-- A unit no longer than the chunk size yields exactly one chunk. -/
theorem splitUnit_short (t : String) (h0 : 0 < t.length) (h1 : t.length ≤ 1000) :
    splitUnit t = [t] := by
  have hdl : t.data.length = t.length := rfl
  have hc : chunkFrom t.data 0 = [t.data.drop 0] := by
    unfold chunkFrom
    rw [if_pos (by omega)]
  unfold splitUnit
  rw [if_neg (by omega), hc, List.drop_zero]
  rfl

/-- A persisted record keeps the chunk text whatever the field path. -/
theorem mkStored_text (path t : String) (v : Vec) (m : ChunkMeta) :
    (mkStored path t v m).text = t := by
  unfold mkStored
  split_ifs <;> rfl

/-- C9: a PPTX file whose archive cannot be extracted still yields exactly one
ingested chunk whose text is the placeholder naming the file, and the batch
then continues with the remaining files over the store extended by that one
chunk. -/
theorem pptx_corrupt_placeholder_chunk (embed : Embed) (path : String)
    (store : List StoredDoc) (name emsg : String) (rest : List InFile) (v : Vec)
    (hext : extOf name = "pptx")
    (hdup : store.any (fun d => d.metadata.source = name) = false)
    (hembed : embed (placeholderText name) = .ok v)
    (hlen : (placeholderText name).length ≤ 1000) :
    ∃ rec : StoredDoc, rec.text = placeholderText name ∧
      coordIngestFile embed path store ⟨name, .error emsg⟩ =
        (store ++ [rec], .ok ⟨name, "processed", 1⟩) ∧
      (coordIngest embed path store (⟨name, .error emsg⟩ :: rest)).1 =
        (coordIngest embed path (store ++ [rec]) rest).1 := by
  have hplen : 0 < (placeholderText name).length := by
    unfold placeholderText
    rw [String.length_append, String.length_append]
    have h25 : ("PowerPoint presentation: ").length = 25 := rfl
    omega
  have hdisp : dispatch ⟨name, Except.error emsg⟩ =
      .ok [{ pageContent := placeholderText name, page := some 1 }] := by
    unfold dispatch
    simp only [hext]
    rfl
  have hsp : splitDocsUnits [{ pageContent := placeholderText name, page := some 1 }] =
      [(placeholderText name,
        { pageContent := placeholderText name, page := some 1 })] := by
    unfold splitDocsUnits
    simp [splitUnit_short (placeholderText name) hplen hlen]
  have hea : embedAll embed [placeholderText name] = .ok [v] := by
    unfold embedAll
    rw [hembed]
    rfl
  have hfile : coordIngestFile embed path store ⟨name, Except.error emsg⟩ =
      (store ++ [mkStored path (placeholderText name) v
        { source := name, fileType := (extOf name).toUpper, page := 1,
          sheet := none, slide := none, chunk_index := 0, total_chunks := 1 }],
       .ok ⟨name, "processed", 1⟩) := by
    unfold coordIngestFile
    rw [if_neg (by simp [hdup])]
    rw [hdisp]
    simp only [hsp]
    simp only [List.map_cons, List.map_nil]
    rw [hea]
    rfl
  refine ⟨mkStored path (placeholderText name) v
    { source := name, fileType := (extOf name).toUpper, page := 1,
      sheet := none, slide := none, chunk_index := 0, total_chunks := 1 },
    mkStored_text _ _ _ _, hfile, ?_⟩
  have hred : coordIngest embed path store (⟨name, Except.error emsg⟩ :: rest) =
      match coordIngest embed path (store ++ [mkStored path (placeholderText name) v
        { source := name, fileType := (extOf name).toUpper, page := 1,
          sheet := none, slide := none, chunk_index := 0, total_chunks := 1 }]) rest with
      | (s', IngestResult.success sts) =>
          (s', IngestResult.success (⟨name, "processed", 1⟩ :: sts))
      | (s', IngestResult.failure e) => (s', IngestResult.failure e) := by
    show (match coordIngestFile embed path store ⟨name, Except.error emsg⟩ with
      | (s, Except.error e) => (s, IngestResult.failure e)
      | (s, Except.ok st) =>
        match coordIngest embed path s rest with
        | (s', IngestResult.success sts) => (s', IngestResult.success (st :: sts))
        | (s', IngestResult.failure e) => (s', IngestResult.failure e)) = _
    rw [hfile]
  rw [hred]
  cases hrec : coordIngest embed path (store ++ [mkStored path (placeholderText name) v
      { source := name, fileType := (extOf name).toUpper, page := 1,
        sheet := none, slide := none, chunk_index := 0, total_chunks := 1 }]) rest with
  | mk s' r =>
    cases r with
    | success sts => rfl
    | failure e => rfl

/-- Witness for C9: a corrupted `deck.pptx` over an empty store, followed by
an empty remainder of the batch. -/
theorem pptx_corrupt_placeholder_chunk_witness :
    extOf "deck.pptx" = "pptx" ∧
    (placeholderText "deck.pptx").length ≤ 1000 ∧
    (∃ rec : StoredDoc, rec.text = placeholderText "deck.pptx" ∧
      coordIngestFile okEmbed "embedding" [] ⟨"deck.pptx", .error "invalid zip"⟩ =
        ([] ++ [rec], .ok ⟨"deck.pptx", "processed", 1⟩) ∧
      (coordIngest okEmbed "embedding" [] (⟨"deck.pptx", .error "invalid zip"⟩ :: [])).1 =
        (coordIngest okEmbed "embedding" ([] ++ [rec]) []).1) :=
  ⟨rfl, by decide,
   pptx_corrupt_placeholder_chunk okEmbed "embedding" [] "deck.pptx" "invalid zip" [] [0]
     rfl rfl rfl (by decide)⟩

theorem cutPoint_lb (text : List Char) (p : Nat) : p + 201 ≤ cutPoint text p := by
  unfold cutPoint
  omega

theorem cutPoint_ub (text : List Char) (p : Nat) : cutPoint text p ≤ p + 1000 := by
  unfold cutPoint
  omega

/-- Every chunk of a unit has at most 1000 characters. -/
theorem chunkFrom_length_le (text : List Char) (p : Nat) :
    ∀ c ∈ chunkFrom text p, c.length ≤ 1000 := by
  induction p using chunkFrom.induct text with
  | case1 p h =>
    intro c hc
    unfold chunkFrom at hc
    rw [if_pos h] at hc
    simp only [List.mem_singleton] at hc
    subst hc
    rw [List.length_drop]
    omega
  | case2 p h ih =>
    intro c hc
    unfold chunkFrom at hc
    rw [if_neg h] at hc
    rcases List.mem_cons.mp hc with rfl | hmem
    · rw [List.length_take, List.length_drop]
      have := cutPoint_ub text p
      omega
    · exact ih c hmem

/-- The chunk sequence of a text with at least 201 remaining characters
starts with a window of at least 200 characters taken at the current
offset. -/
theorem chunkFrom_head_take (text : List Char) (p : Nat)
    (h : 201 ≤ text.length - p) :
    ∃ k rest, 200 ≤ k ∧ chunkFrom text p = ((text.drop p).take k) :: rest := by
  by_cases hb : text.length ≤ p + 1000
  · refine ⟨text.length - p, [], by omega, ?_⟩
    unfold chunkFrom
    rw [if_pos hb]
    congr 1
    rw [show text.length - p = (text.drop p).length from (List.length_drop _ _).symm,
      List.take_length]
  · refine ⟨cutPoint text p - p, chunkFrom text (cutPoint text p - 200), ?_, ?_⟩
    · have := cutPoint_lb text p
      omega
    · conv_lhs => rw [chunkFrom]
      rw [if_neg hb]

/-- Consecutive chunks of one unit always overlap in 200 characters. -/
theorem chunkFrom_chain' (text : List Char) (p : Nat) :
    List.Chain' overlapOkChars (chunkFrom text p) := by
  induction p using chunkFrom.induct text with
  | case1 p h =>
    unfold chunkFrom
    rw [if_pos h]
    exact List.chain'_singleton _
  | case2 p h ih =>
    unfold chunkFrom
    rw [if_neg h]
    rw [List.chain'_cons']
    refine ⟨?_, ih⟩
    intro y hy
    have h1 := cutPoint_lb text p
    have h2 := cutPoint_ub text p
    have hlen : 201 ≤ text.length - (cutPoint text p - 200) := by omega
    obtain ⟨k, rest, hk, heq⟩ := chunkFrom_head_take text (cutPoint text p - 200) hlen
    rw [heq] at hy
    simp only [List.head?_cons, Option.mem_def, Option.some.injEq] at hy
    subst hy
    constructor
    · rw [List.length_take, List.length_drop]
      omega
    · have hcl : ((text.drop p).take (cutPoint text p - p)).length =
          cutPoint text p - p := by
        rw [List.length_take, List.length_drop]
        omega
      rw [hcl, List.take_take]
      have hmin : min 200 k = 200 := by omega
      rw [hmin, List.drop_take, List.drop_drop]
      have e1 : (cutPoint text p - p) - (cutPoint text p - p - 200) = 200 := by omega
      have e2 : p + (cutPoint text p - p - 200) = cutPoint text p - 200 := by omega
      rw [e1, e2]

/-- C6: spec-modelled chunking with size 1000 and overlap 200 — every chunk
of a unit has at most 1000 characters (so in particular every non-final
chunk), and each pair of consecutive chunks of the unit shares 200
overlapping characters (the last 200 of one are the first 200 of the
next). -/
theorem chunking_size_and_overlap (t : String) :
    (∀ c ∈ splitUnit t, c.length ≤ 1000) ∧
    List.Chain' chunkOverlapOk (splitUnit t) := by
  constructor
  · intro c hc
    unfold splitUnit at hc
    by_cases h0 : t.length = 0
    · rw [if_pos h0] at hc
      simp at hc
    · rw [if_neg h0] at hc
      obtain ⟨l, hl, rfl⟩ := List.mem_map.mp hc
      exact chunkFrom_length_le t.data 0 l hl
  · unfold splitUnit
    by_cases h0 : t.length = 0
    · rw [if_pos h0]
      exact List.chain'_nil
    · rw [if_neg h0, List.chain'_map]
      exact List.Chain'.imp (fun a b hab => hab) (chunkFrom_chain' t.data 0)

end RagWorkshop
